import Mathlib

/-!
Verification of the CV-Handler screening app (src/app.py) against its
natural-language specification.

The program is a single Streamlit script.  Its effectful boundary (the PDF
parser, the hosted model, the UI widgets) is modelled as an oracle: each
per-candidate iteration of the analysis loop receives an `Outcome` describing
what the external world did (extraction raised, the model call raised, or the
call returned text whose `json.loads` result is given), and the embedding
computes exactly what the Python code then does with it, emitting a trace of
observable `Event`s (model calls, error messages, sleeps, warnings).
-/

namespace CVHandler

/-- JSON values as produced by `json.loads`.  Objects are association lists in
insertion order, matching Python dict semantics for lookup and assignment. -/
inductive JValue where
  | null
  | bool (b : Bool)
  | num (n : Int)
  | str (s : String)
  | arr (xs : List JValue)
  | obj (kvs : List (String × JValue))

/-- Lookup of a key in a Python dict modelled as an association list. -/
def lookupKey : List (String × JValue) → String → Option JValue
  | [], _ => none
  | (k', v) :: rest, k => if k' = k then some v else lookupKey rest k

/-- Python dict assignment `d[k] = v`: replace the value of an existing key in
place, otherwise append the new pair at the end. -/
def assignKey : List (String × JValue) → String → JValue → List (String × JValue)
  | [], k, v => [(k, v)]
  | (k', v') :: rest, k, v =>
      if k' = k then (k, v) :: rest else (k', v') :: assignKey rest k v

/-- Embeds line 105 of app.py, `data['filename'] = cv['name']`: item assignment
succeeds only on a dict and raises `TypeError` otherwise. -/
def setFilename (v : JValue) (fname : String) : Except String JValue :=
  match v with
  | .obj kvs => .ok (.obj (assignKey kvs "filename" (.str fname)))
  | _ => .error "TypeError: object does not support item assignment"

/-- Embeds lines 102-105 of app.py after `json.loads` succeeded with `v`:
`if isinstance(data, list): data = data[0]` (raising `IndexError` on an empty
list) followed by `data['filename'] = cv['name']`. -/
def normalize (v : JValue) (fname : String) : Except String JValue :=
  match v with
  | .arr [] => .error "IndexError: list index out of range"
  | .arr (x :: _) => setFilename x fname
  | _ => setFilename v fname

/-- Embeds `isinstance(data, list)` from line 103 of app.py. -/
def isList : JValue → Bool
  | .arr _ => true
  | _ => false

/-- Embeds line 80 of app.py: `" ".join([p.extract_text() for p in
reader.pages[:4] if p.extract_text()])`.  `pages` is the list of per-page
extraction results for the whole document; the code keeps the first four,
drops falsy (empty) strings, and joins with a space. -/
def cvText (pages : List String) : String :=
  String.intercalate " " ((pages.take 4).filter (fun s => !s.isEmpty))

/-- Embeds the f-string prompt of lines 83-99 of app.py, with `jd_text` and
`cv_text` interpolated. -/
def buildPrompt (jd cv : String) : String :=
  "\n                    Act as an Executive Recruitment Consultant. Analyze this CV against the JD.\n                    Provide a precise numeric evaluation.\n                    Return JSON:\n                    \x7b\n                      \"name\": \"string\",\n                      \"total_score\": integer (0-100),\n                      \"technical_fit\": integer (0-100),\n                      \"seniority_fit\": integer (0-100),\n                      \"verdict\": \"short summary\",\n                      \"strengths\": [\"list of 3 items\"],\n                      \"weaknesses\": [\"list of 3 items\"],\n                      \"interview_questions\": [\"3 specific questions based on weaknesses\"]\n                    \x7d\n                    JD: " ++ jd ++ "\n                    CV: " ++ cv ++ "\n                    "

/-- Embeds the f-string of line 109 of app.py:
`f"Error analyzing \x7bcv['name']\x7d: \x7be\x7d"`. -/
def errMsg (fname msg : String) : String :=
  "Error analyzing " ++ fname ++ ": " ++ msg

/-- One uploaded CV as stored in `st.session_state.uploaded_data` (line 66 of
app.py): the file name and the raw bytes returned by `f.read()`. -/
structure CVFile where
  name : String
  content : List Nat
  deriving Repr, DecidableEq

/-- What the external model call did in one iteration: raised, or returned a
response whose `json.loads` result is `parse` (`Except.error` when `json.loads`
itself raised). -/
inductive CallOutcome where
  | callRaises (msg : String)
  | returns (parse : Except String JValue)

/-- What the external world did in one iteration of the analysis loop: the PDF
read / text extraction raised before any model call, or extraction produced the
per-page texts `pages` and the model call then had outcome `call`. -/
inductive Outcome where
  | extractRaises (msg : String)
  | extracted (pages : List String) (call : CallOutcome)

/-- Observable effects of the program, in order of occurrence. -/
inductive Event where
  | modelCall (prompt : String)
  | errorShown (msg : String)
  | slept (secs : Nat)
  | warningShown (msg : String)
  deriving Repr, DecidableEq

/-- Total seconds slept in a trace. -/
def sleptTotal (evs : List Event) : Nat :=
  evs.foldl (fun n e => match e with | .slept s => n + s | _ => n) 0

/-- Embeds the body of the per-candidate loop, lines 78-109 of app.py: the
`try` block reads the PDF, extracts text, builds the prompt, calls the model,
parses and normalizes the JSON, appends the record to `all_findings` and sleeps
1 second; any exception instead prints an error naming the file and the
findings are left unchanged.  Returns the new findings list and the events of
this iteration. -/
def processCandidate (jd : String) (acc : List JValue) (cv : CVFile)
    (out : Outcome) : List JValue × List Event :=
  match out with
  | .extractRaises msg => (acc, [.errorShown (errMsg cv.name msg)])
  | .extracted pages call =>
    let prompt := buildPrompt jd (cvText pages)
    match call with
    | .callRaises msg => (acc, [.modelCall prompt, .errorShown (errMsg cv.name msg)])
    | .returns (.error msg) =>
        (acc, [.modelCall prompt, .errorShown (errMsg cv.name msg)])
    | .returns (.ok v) =>
      match normalize v cv.name with
      | .ok rec => (acc ++ [rec], [.modelCall prompt, .slept 1])
      | .error msg => (acc, [.modelCall prompt, .errorShown (errMsg cv.name msg)])

/-- True exactly when the iteration for the file named `fname` raises during
PDF read, text extraction, the model call, JSON parsing or normalization, i.e.
at any point before the record append of line 106 of app.py. -/
def raisesBeforeRecord (fname : String) : Outcome → Bool
  | .extractRaises _ => true
  | .extracted _ (.callRaises _) => true
  | .extracted _ (.returns (.error _)) => true
  | .extracted _ (.returns (.ok v)) =>
      match normalize v fname with
      | .ok _ => false
      | .error _ => true

/-- Embeds the `for idx, cv in enumerate(st.session_state.uploaded_data)` loop
of lines 77-111 of app.py as a fold of `processCandidate` over the uploaded
files paired with their external outcomes, threading `all_findings` and
concatenating the event traces. -/
def runScreening (jd : String) :
    List (CVFile × Outcome) → List JValue → List JValue × List Event
  | [], acc => (acc, [])
  | (cv, out) :: rest, acc =>
    let step := processCandidate jd acc cv out
    let restRun := runScreening jd rest step.1
    (restRun.1, step.2 ++ restRun.2)

/-- The session state the claims are about: `st.session_state.analysis_results`
(line 37 of app.py, `None` before any run) and
`st.session_state.uploaded_data` (line 38). -/
structure AppState where
  analysis_results : Option (List JValue)
  uploaded_data : List CVFile

/-- Embeds the Start Deep Screening button handler, lines 69-114 of app.py:
if the job description is empty or no CVs are uploaded, a warning is shown and
nothing else happens; otherwise the analysis loop runs over the uploaded files
(paired here with their external outcomes) and its findings are stored in
`analysis_results`. -/
def startDeepScreening (jd : String) (st : AppState) (outs : List Outcome) :
    AppState × List Event :=
  if jd = "" ∨ st.uploaded_data = [] then
    (st, [.warningShown "Please provide both a Job Description and at least one CV."])
  else
    let run := runScreening jd (st.uploaded_data.zip outs) []
    (⟨some run.1, st.uploaded_data⟩, run.2)

/-- Embeds one step of the upload dedup loop, lines 63-66 of app.py: append the
file unless some stored CV already has its name. -/
def uploadOne (state : List CVFile) (f : CVFile) : List CVFile :=
  if state.any (fun cv => cv.name == f.name) then state else state ++ [f]

/-- Embeds the whole `for f in files` upload loop of lines 63-66 of app.py. -/
def handleUploads (state : List CVFile) (files : List CVFile) : List CVFile :=
  files.foldl uploadOne state

/-- The `total_score` entry of a record, when the record is a dict and the
entry is numeric. -/
def totalScore? (r : JValue) : Option Int :=
  match r with
  | .obj kvs =>
    match lookupKey kvs "total_score" with
    | some (.num n) => some n
    | _ => none
  | _ => none

/-- Descending comparison on the `total_score` key, the order used by
`sort_values(by="total_score", ascending=False)` on line 118 of app.py. -/
def scoreGe (a b : JValue) : Prop :=
  (totalScore? b).getD 0 ≤ (totalScore? a).getD 0

instance : DecidableRel scoreGe :=
  fun a b => inferInstanceAs (Decidable ((totalScore? b).getD 0 ≤ (totalScore? a).getD 0))

instance : IsTotal JValue scoreGe :=
  ⟨fun a b => Int.le_total ((totalScore? b).getD 0) ((totalScore? a).getD 0)⟩

instance : IsTrans JValue scoreGe :=
  ⟨fun _ _ _ hab hbc => le_trans hbc hab⟩

/-- Embeds line 118 of app.py: the dashboard table is the analysis records
sorted by `total_score` in descending order. -/
def dashboardTable (records : List JValue) : List JValue :=
  List.insertionSort scoreGe records

/-! Helper lemmas about dict assignment and the upload loop, shared by the
claim theorems below. -/

/-- After `d[k] = v`, looking up `k` yields `v`. -/
theorem lookupKey_assignKey_self (kvs : List (String × JValue)) (k : String) (v : JValue) :
    lookupKey (assignKey kvs k v) k = some v := by
  induction kvs with
  | nil => simp [assignKey, lookupKey]
  | cons p rest ih =>
    obtain ⟨k', v'⟩ := p
    by_cases h : k' = k
    · simp [assignKey, lookupKey, h]
    · simp [assignKey, lookupKey, h, ih]

/-- `d[k0] = v` does not change the value looked up at any other key. -/
theorem lookupKey_assignKey_ne (kvs : List (String × JValue)) (k0 k : String) (v : JValue)
    (h : k ≠ k0) :
    lookupKey (assignKey kvs k0 v) k = lookupKey kvs k := by
  induction kvs with
  | nil => simp [assignKey, lookupKey, Ne.symm h]
  | cons p rest ih =>
    obtain ⟨k', v'⟩ := p
    by_cases h1 : k' = k0
    · subst h1
      simp [assignKey, lookupKey, Ne.symm h]
    · by_cases h2 : k' = k
      · simp [assignKey, lookupKey, h1, h2, h]
      · simp [assignKey, lookupKey, h1, h2, ih]

/-- One upload step keeps the stored file names pairwise distinct. -/
theorem uploadOne_names_nodup (s : List CVFile) (f : CVFile)
    (h : (s.map CVFile.name).Nodup) : ((uploadOne s f).map CVFile.name).Nodup := by
  unfold uploadOne
  split
  · exact h
  · rename_i hany
    have hnot : f.name ∉ s.map CVFile.name := by
      intro hmem
      obtain ⟨cv, hcv, hname⟩ := List.mem_map.mp hmem
      exact hany (List.any_eq_true.mpr ⟨cv, hcv, by simp [hname]⟩)
    simp [List.nodup_append, h, hnot]

/-- The whole upload loop keeps the stored file names pairwise distinct. -/
theorem handleUploads_names_nodup (files : List CVFile) : ∀ state : List CVFile,
    (state.map CVFile.name).Nodup → ((handleUploads state files).map CVFile.name).Nodup := by
  induction files with
  | nil => exact fun s h => h
  | cons f rest ih =>
    intro s h
    exact ih (uploadOne s f) (uploadOne_names_nodup s f h)

/-- Claim C5: the text sent to the model is built only from the résumé's first
four pages: the extracted text equals what the first four pages alone produce,
so no page beyond them influences the prompt. -/
theorem prompt_uses_only_first_four_pages (jd : String) (pages : List String) :
    cvText pages = cvText (pages.take 4) ∧
    buildPrompt jd (cvText pages) = buildPrompt jd (cvText (pages.take 4)) := by
  have h : cvText pages = cvText (pages.take 4) := by
    unfold cvText
    rw [List.take_take]
    norm_num
  exact ⟨h, by rw [h]⟩

/-- Claim C3: when the per-candidate processing raises (PDF read, text
extraction, model call, or JSON parsing/normalization), an error message naming
that candidate's file is displayed, the findings list is unchanged, and the
loop continues with the remaining files exactly as if this iteration had not
happened. -/
theorem per_candidate_failure (jd : String) (acc : List JValue) (cv : CVFile)
    (out : Outcome) (h : raisesBeforeRecord cv.name out = true) :
    (processCandidate jd acc cv out).1 = acc ∧
    (∃ msg, Event.errorShown (errMsg cv.name msg) ∈ (processCandidate jd acc cv out).2) ∧
    ∀ rest, (runScreening jd ((cv, out) :: rest) acc).1 = (runScreening jd rest acc).1 := by
  have hstep : (processCandidate jd acc cv out).1 = acc ∧
      ∃ msg, Event.errorShown (errMsg cv.name msg) ∈ (processCandidate jd acc cv out).2 := by
    match out with
    | .extractRaises msg => exact ⟨rfl, msg, by simp [processCandidate]⟩
    | .extracted pages (.callRaises msg) => exact ⟨rfl, msg, by simp [processCandidate]⟩
    | .extracted pages (.returns (.error msg)) => exact ⟨rfl, msg, by simp [processCandidate]⟩
    | .extracted pages (.returns (.ok v)) =>
      cases hn : normalize v cv.name with
      | ok rec => simp [raisesBeforeRecord, hn] at h
      | error msg =>
        refine ⟨?_, msg, ?_⟩ <;> simp [processCandidate, hn]
  refine ⟨hstep.1, hstep.2, fun rest => ?_⟩
  show (runScreening jd ((cv, out) :: rest) acc).1 = _
  simp only [runScreening, hstep.1]

/-- Witness for `per_candidate_failure` at a concrete failing extraction. -/
theorem per_candidate_failure_witness :
    raisesBeforeRecord "w.pdf" (Outcome.extractRaises "bad pdf") = true ∧
    ((processCandidate "jd" [] ⟨"w.pdf", []⟩ (Outcome.extractRaises "bad pdf")).1 = [] ∧
     (∃ msg, Event.errorShown (errMsg "w.pdf" msg)
        ∈ (processCandidate "jd" [] ⟨"w.pdf", []⟩ (Outcome.extractRaises "bad pdf")).2) ∧
     ∀ rest, (runScreening "jd" ((⟨"w.pdf", []⟩, Outcome.extractRaises "bad pdf") :: rest) []).1 =
        (runScreening "jd" rest []).1) :=
  ⟨rfl, per_candidate_failure "jd" [] ⟨"w.pdf", []⟩ (Outcome.extractRaises "bad pdf") rfl⟩

/-- Claim C10: pressing Start Deep Screening with an empty job description or
with no uploaded CVs shows the warning, makes no model call, and leaves the
session state (in particular `analysis_results`) unchanged. -/
theorem empty_input_guard (jd : String) (st : AppState) (outs : List Outcome)
    (h : jd = "" ∨ st.uploaded_data = []) :
    (startDeepScreening jd st outs).1 = st ∧
    (∀ p, Event.modelCall p ∉ (startDeepScreening jd st outs).2) ∧
    Event.warningShown "Please provide both a Job Description and at least one CV."
      ∈ (startDeepScreening jd st outs).2 := by
  unfold startDeepScreening
  rw [if_pos h]
  refine ⟨rfl, ?_, ?_⟩ <;> simp

/-- Witness for `empty_input_guard` with an empty job description. -/
theorem empty_input_guard_witness :
    ("" = "" ∨ (AppState.mk none []).uploaded_data = []) ∧
    ((startDeepScreening "" ⟨none, []⟩ []).1 = (⟨none, []⟩ : AppState) ∧
     (∀ p, Event.modelCall p ∉ (startDeepScreening "" ⟨none, []⟩ []).2) ∧
     Event.warningShown "Please provide both a Job Description and at least one CV."
       ∈ (startDeepScreening "" ⟨none, []⟩ []).2) :=
  ⟨Or.inl rfl, empty_input_guard "" ⟨none, []⟩ [] (Or.inl rfl)⟩

/-- Claim C9: after every upload-handling step the stored file names stay
pairwise distinct, and uploading a file whose name already appears leaves the
stored list, including the previously stored content for that name,
unchanged. -/
theorem upload_dedup (state files : List CVFile)
    (h : (state.map CVFile.name).Nodup) :
    ((handleUploads state files).map CVFile.name).Nodup ∧
    ∀ f : CVFile, f.name ∈ state.map CVFile.name → uploadOne state f = state := by
  refine ⟨handleUploads_names_nodup files state h, fun f hf => ?_⟩
  unfold uploadOne
  rw [if_pos]
  obtain ⟨cv, hcv, hname⟩ := List.mem_map.mp hf
  exact List.any_eq_true.mpr ⟨cv, hcv, by simp [hname]⟩

/-- Witness for `upload_dedup`: re-uploading `a.pdf` with different bytes
leaves the stored entry untouched. -/
theorem upload_dedup_witness :
    (([⟨"a.pdf", [0]⟩] : List CVFile).map CVFile.name).Nodup ∧
    (((handleUploads [⟨"a.pdf", [0]⟩] [⟨"a.pdf", [1]⟩]).map CVFile.name).Nodup ∧
     ∀ f : CVFile, f.name ∈ ([⟨"a.pdf", [0]⟩] : List CVFile).map CVFile.name →
        uploadOne [⟨"a.pdf", [0]⟩] f = [⟨"a.pdf", [0]⟩]) :=
  ⟨by decide, upload_dedup [⟨"a.pdf", [0]⟩] [⟨"a.pdf", [1]⟩] (by decide)⟩

/-- Claim C4: the dashboard table is a permutation of the analysis records,
and along the table every adjacent pair of rows has non-increasing
`total_score` (stated for runs whose records all carry a numeric
`total_score`, which is what `sort_values` requires). -/
theorem dashboard_sorted_and_permuted (records : List JValue)
    (h : ∀ r ∈ records, (totalScore? r).isSome = true) :
    (dashboardTable records).Perm records ∧
    (dashboardTable records).Chain'
      (fun a b => ∃ x y, totalScore? a = some x ∧ totalScore? b = some y ∧ y ≤ x) := by
  refine ⟨List.perm_insertionSort scoreGe records, ?_⟩
  have hs : (dashboardTable records).Pairwise scoreGe :=
    List.sorted_insertionSort scoreGe records
  have hmem : ∀ r ∈ dashboardTable records, r ∈ records := by
    intro r hr
    exact (List.perm_insertionSort scoreGe records).mem_iff.mp hr
  have hp : (dashboardTable records).Pairwise
      (fun a b => ∃ x y, totalScore? a = some x ∧ totalScore? b = some y ∧ y ≤ x) := by
    refine hs.imp_of_mem ?_
    intro a b ha hb hab
    obtain ⟨x, hx⟩ := Option.isSome_iff_exists.mp (h a (hmem a ha))
    obtain ⟨y, hy⟩ := Option.isSome_iff_exists.mp (h b (hmem b hb))
    refine ⟨x, y, hx, hy, ?_⟩
    simpa [scoreGe, hx, hy] using hab
  exact hp.chain'

/-- Witness for `dashboard_sorted_and_permuted` on two concrete records. -/
theorem dashboard_sorted_and_permuted_witness :
    (∀ r ∈ [JValue.obj [("total_score", JValue.num 40)],
            JValue.obj [("total_score", JValue.num 90)]], (totalScore? r).isSome = true) ∧
    ((dashboardTable [JValue.obj [("total_score", JValue.num 40)],
        JValue.obj [("total_score", JValue.num 90)]]).Perm
        [JValue.obj [("total_score", JValue.num 40)],
         JValue.obj [("total_score", JValue.num 90)]] ∧
     (dashboardTable [JValue.obj [("total_score", JValue.num 40)],
        JValue.obj [("total_score", JValue.num 90)]]).Chain'
      (fun a b => ∃ x y, totalScore? a = some x ∧ totalScore? b = some y ∧ y ≤ x)) :=
  ⟨by decide, dashboard_sorted_and_permuted
    [JValue.obj [("total_score", JValue.num 40)],
     JValue.obj [("total_score", JValue.num 90)]] (by decide)⟩

/-- Counterexample to claim C1: a parsed object missing every expected key is
normalized into a record that still has no `name` entry (nor any other
default): only `filename` is added, so missing keys are not filled with
default values. -/
theorem missing_keys_stay_missing :
    normalize (JValue.obj []) "cv.pdf" =
      Except.ok (JValue.obj [("filename", JValue.str "cv.pdf")]) ∧
    lookupKey [("filename", JValue.str "cv.pdf")] "name" = none := by
  exact ⟨rfl, by simp [lookupKey]⟩

/-- Claim C1 as amended: the normalization step fills in no defaults.  For a
parsed object, every key other than `filename` is looked up in the record
exactly as in the parsed object (so a missing key stays missing), and the only
change is that `filename` is set to the source file name. -/
theorem normalization_adds_only_filename (kvs : List (String × JValue))
    (fname k : String) (hk : k ≠ "filename") :
    normalize (JValue.obj kvs) fname =
      Except.ok (JValue.obj (assignKey kvs "filename" (JValue.str fname))) ∧
    lookupKey (assignKey kvs "filename" (JValue.str fname)) k = lookupKey kvs k ∧
    lookupKey (assignKey kvs "filename" (JValue.str fname)) "filename" =
      some (JValue.str fname) :=
  ⟨rfl, lookupKey_assignKey_ne kvs "filename" k (JValue.str fname) hk,
   lookupKey_assignKey_self kvs "filename" (JValue.str fname)⟩

/-- Witness for `normalization_adds_only_filename` at the key `name` on an
object with no keys at all. -/
theorem normalization_adds_only_filename_witness :
    ("name" ≠ "filename") ∧
    (normalize (JValue.obj []) "a.pdf" =
       Except.ok (JValue.obj (assignKey [] "filename" (JValue.str "a.pdf"))) ∧
     lookupKey (assignKey [] "filename" (JValue.str "a.pdf")) "name" =
       lookupKey [] "name" ∧
     lookupKey (assignKey [] "filename" (JValue.str "a.pdf")) "filename" =
       some (JValue.str "a.pdf")) :=
  ⟨by decide, normalization_adds_only_filename [] "a.pdf" "name" (by decide)⟩

/-- Counterexample to claim C2: when the model call raises an exception whose
message contains `429`, the iteration sleeps 0 seconds in total — there is no
longer sleep (and not even the fixed 1-second post-call sleep); the handler
only shows the error. -/
theorem rate_limit_429_no_extra_sleep :
    sleptTotal (processCandidate "jd" [] ⟨"cv.pdf", []⟩
      (.extracted ["some text"] (.callRaises "429 Resource has been exhausted"))).2 = 0 ∧
    Event.errorShown (errMsg "cv.pdf" "429 Resource has been exhausted")
      ∈ (processCandidate "jd" [] ⟨"cv.pdf", []⟩
      (.extracted ["some text"] (.callRaises "429 Resource has been exhausted"))).2 :=
  ⟨rfl, List.mem_cons_of_mem _ (List.mem_cons_self _ _)⟩

/-- Claim C2 as amended: exceptions whose message matches `429` receive no
special handling.  For every model-call exception, whatever its message, the
iteration shows the error, performs no sleep at all, and leaves the findings
unchanged. -/
theorem exception_has_no_special_429_handling (jd : String) (acc : List JValue)
    (cv : CVFile) (pages : List String) (msg : String) :
    processCandidate jd acc cv (.extracted pages (.callRaises msg)) =
      (acc, [.modelCall (buildPrompt jd (cvText pages)),
             .errorShown (errMsg cv.name msg)]) ∧
    sleptTotal (processCandidate jd acc cv (.extracted pages (.callRaises msg))).2 = 0 :=
  ⟨rfl, rfl⟩

/-- Counterexample to claim C6: when the parsed JSON is the empty list, the
normalization step does not replace it by a first element — `data[0]` raises
`IndexError`, so no record is built for that candidate. -/
theorem empty_list_parse_raises :
    normalize (JValue.arr []) "cv.pdf" =
      Except.error "IndexError: list index out of range" ∧
    (processCandidate "jd" [] ⟨"cv.pdf", []⟩
        (.extracted ["t"] (.returns (.ok (JValue.arr []))))).1 = [] :=
  ⟨rfl, rfl⟩

/-- Claim C6 as amended: a parse that is a nonempty list is replaced by its
first element before the filename assignment; the empty list instead raises
`IndexError` and yields no record; a non-list parse is used unchanged. -/
theorem list_fallback_first_element (fname : String) (x : JValue) (xs : List JValue)
    (v : JValue) (hv : isList v = false) :
    normalize (JValue.arr (x :: xs)) fname = setFilename x fname ∧
    normalize (JValue.arr []) fname =
      Except.error "IndexError: list index out of range" ∧
    normalize v fname = setFilename v fname := by
  refine ⟨rfl, rfl, ?_⟩
  cases v <;> simp_all [isList, normalize]

/-- Witness for `list_fallback_first_element` on a singleton list and a
non-list (object) parse. -/
theorem list_fallback_first_element_witness :
    isList (JValue.obj []) = false ∧
    (normalize (JValue.arr [JValue.null]) "b.pdf" = setFilename JValue.null "b.pdf" ∧
     normalize (JValue.arr []) "b.pdf" =
       Except.error "IndexError: list index out of range" ∧
     normalize (JValue.obj []) "b.pdf" = setFilename (JValue.obj []) "b.pdf") :=
  ⟨rfl, list_fallback_first_element "b.pdf" JValue.null [] (JValue.obj []) rfl⟩

/-- Counterexample to claim C7: an iteration whose model call completes but
whose response fails `json.loads` performs no sleep at all — the model call
happened, yet the fixed 1-second sleep is skipped because the exception jumps
to the handler. -/
theorem parse_failure_skips_sleep :
    Event.modelCall (buildPrompt "jd" (cvText ["page text"]))
      ∈ (processCandidate "jd" [] ⟨"cv.pdf", []⟩
          (.extracted ["page text"] (.returns (.error "Expecting value: line 1 column 1")))).2 ∧
    sleptTotal (processCandidate "jd" [] ⟨"cv.pdf", []⟩
          (.extracted ["page text"] (.returns (.error "Expecting value: line 1 column 1")))).2 = 0 :=
  ⟨List.mem_cons_self _ _, rfl⟩

/-- Claim C7 as amended: the fixed 1-second sleep happens after every
successfully recorded model call (call returned, JSON parsed and normalized,
record appended), and an iteration that raises at any point performs no sleep. -/
theorem sleep_only_after_recorded_call (jd : String) (acc : List JValue)
    (cv : CVFile) (pages : List String) (v rec : JValue)
    (h : normalize v cv.name = Except.ok rec) :
    (processCandidate jd acc cv (.extracted pages (.returns (.ok v)))).2 =
      [.modelCall (buildPrompt jd (cvText pages)), .slept 1] ∧
    ∀ out : Outcome, raisesBeforeRecord cv.name out = true →
      sleptTotal (processCandidate jd acc cv out).2 = 0 := by
  constructor
  · simp [processCandidate, h]
  · intro out hout
    match out with
    | .extractRaises msg => rfl
    | .extracted pages' (.callRaises msg) => rfl
    | .extracted pages' (.returns (.error msg)) => rfl
    | .extracted pages' (.returns (.ok v')) =>
      cases hn : normalize v' cv.name with
      | ok r => simp [raisesBeforeRecord, hn] at hout
      | error m =>
        show sleptTotal (processCandidate jd acc cv
          (.extracted pages' (.returns (.ok v')))).2 = 0
        simp [processCandidate, hn, sleptTotal]

/-- Witness for `sleep_only_after_recorded_call` on a record that normalizes
successfully. -/
theorem sleep_only_after_recorded_call_witness :
    normalize (JValue.obj []) "c.pdf" =
      Except.ok (JValue.obj [("filename", JValue.str "c.pdf")]) ∧
    ((processCandidate "jd" [] ⟨"c.pdf", []⟩
        (.extracted ["t"] (.returns (.ok (JValue.obj []))))).2 =
        [.modelCall (buildPrompt "jd" (cvText ["t"])), .slept 1] ∧
     ∀ out : Outcome, raisesBeforeRecord "c.pdf" out = true →
        sleptTotal (processCandidate "jd" [] ⟨"c.pdf", []⟩ out).2 = 0) :=
  ⟨rfl, sleep_only_after_recorded_call "jd" [] ⟨"c.pdf", []⟩ ["t"]
    (JValue.obj []) (JValue.obj [("filename", JValue.str "c.pdf")]) rfl⟩

/-- Counterexample to claim C8: a record whose `total_score` is the string
`"ninety"` passes through normalization unchanged — the system performs no
best-effort coercion and does not enforce that the overall score is numeric. -/
theorem non_numeric_score_not_coerced :
    normalize (JValue.obj [("total_score", JValue.str "ninety")]) "cv.pdf" =
      Except.ok (JValue.obj [("total_score", JValue.str "ninety"),
        ("filename", JValue.str "cv.pdf")]) ∧
    totalScore? (JValue.obj [("total_score", JValue.str "ninety"),
        ("filename", JValue.str "cv.pdf")]) = none := by
  exact ⟨by simp [normalize, setFilename, assignKey],
         by simp [totalScore?, lookupKey]⟩

/-- Claim C8 as amended: no invariant at all is enforced on the record's
shape, not even that the score is numeric: whatever value the model returned
under `total_score` is carried into the record unchanged, and the only edit the
analysis loop makes is adding the `filename` key. -/
theorem no_invariant_enforced_on_record (kvs : List (String × JValue)) (fname : String) :
    normalize (JValue.obj kvs) fname =
      Except.ok (JValue.obj (assignKey kvs "filename" (JValue.str fname))) ∧
    lookupKey (assignKey kvs "filename" (JValue.str fname)) "total_score" =
      lookupKey kvs "total_score" :=
  ⟨rfl, lookupKey_assignKey_ne kvs "filename" "total_score" (JValue.str fname) (by decide)⟩

end CVHandler
